import Mathlib

/-!
Verification development for the VINBot application-lifecycle core
(`src/bot.py`).  The Python source is shallowly embedded: dictionaries
become association lists, `async` store methods become pure functions on an
explicit `StoreData` value (the single global lock serializes every mutation,
so each handler is one atomic function from store to store), timestamps
(`now_iso()`) become explicit `String` parameters, and Telegram transport
calls are dropped (they do not touch the store).  Python keys its `users`
and `applications` dicts by `str(id)`; since the decimal rendering of an
integer is injective, the model keys the association lists by the numeric id
itself.  Character-level functions (`upper`, `isalnum`, whitespace) are
modelled at ASCII fidelity via `Char.toUpper`, `Char.isAlphanum`,
`Char.isWhitespace`.
-/

set_option autoImplicit false

/-- Association-list lookup, modelling Python `dict.get`. -/
def lookupKey {κ α : Type} [DecidableEq κ] : List (κ × α) → κ → Option α
  | [], _ => none
  | p :: rest, k => if p.1 = k then some p.2 else lookupKey rest k

/-- Does the association list hold the key?  (`key in dict`). -/
def hasKey {κ α : Type} [DecidableEq κ] : List (κ × α) → κ → Bool
  | [], _ => false
  | p :: rest, k => decide (p.1 = k) || hasKey rest k

/-- Association-list update, modelling Python `dict[k] = v`: overwrite the
entry when the key is present, append it otherwise (Python dicts keep
insertion order). -/
def setKey {κ α : Type} [DecidableEq κ] (l : List (κ × α)) (k : κ) (v : α) :
    List (κ × α) :=
  if hasKey l k then l.map (fun p => if p.1 = k then (k, v) else p)
  else l ++ [(k, v)]

/-- `norm_vin` from `bot.py`: `"".join((v or "").upper().split())`, i.e.
uppercase the string and delete every whitespace character (`split()`
discards all whitespace and `join` concatenates what is left). -/
def norm_vin (v : String) : String :=
  String.mk ((v.data.map Char.toUpper).filter fun c => !c.isWhitespace)

/-- `is_valid_vin` from `bot.py`: the normalized VIN must have length 17 and
every character must be alphanumeric and distinct from `I`, `O`, `Q`. -/
def is_valid_vin (v : String) : Bool :=
  let n := norm_vin v
  if n.length ≠ 17 then false
  else n.data.all fun c => c.isAlphanum && !("IOQ".data.contains c)

/-- Python `str.strip()`: drop whitespace from both ends (structural, so
that concrete runs reduce). -/
def pstrip (s : String) : String :=
  String.mk
    (((s.data.dropWhile Char.isWhitespace).reverse.dropWhile
        Char.isWhitespace).reverse)

/-- `phone_ok` from `bot.py`: trimmed length within `[10, 18]` and characters
drawn from `+0123456789-() `. -/
def phone_ok (s : String) : Bool :=
  let t := pstrip s
  if t.length < 10 || 18 < t.length then false
  else t.data.all fun c => "+0123456789-() ".data.contains c

/-- The `Status` constants of `bot.py`. -/
inductive Status where
  | NEW
  | APPROVED
  | SHIPPED
  | CLOSED
  | REJECTED
deriving DecidableEq

/-- A stored user record (`Store.upsert_user` writes exactly these keys). -/
structure User where
  id : Int
  username : Option String
  first_name : Option String
  last_name : Option String
  created_at : String
deriving DecidableEq

/-- An application record as built by `Store.create_app`. -/
structure App where
  id : Nat
  vin_norm : String
  vin_raw : String
  photo_reg_file_id : Option String
  photo_vin_file_id : Option String
  full_name : String
  phone : String
  owner_phone : String
  receiver_phone : String
  sdek_address : String
  client_id : Int
  status : Status
  created_at : String
  mod_chat_message_id : Option Int
  approved_by : Option Int
  approved_at : Option String
  shipped_by : Option Int
  shipped_at : Option String
  tracking_number : Option String
  tracking_photo_file_id : Option String
deriving DecidableEq

/-- An audit-log entry as appended by `Store.add_event`. -/
structure Event where
  app_id : Nat
  ts : String
  actor_id : Int
  action : String
  data : String
deriving DecidableEq

/-- The in-memory document held by `Store.data`. -/
structure StoreData where
  next_app_id : Nat
  users : List (Int × User)
  applications : List (Nat × App)
  events : List Event
deriving DecidableEq

/-- The initial document built by `Store.__init__`. -/
def emptyStore : StoreData :=
  { next_app_id := 1, users := [], applications := [], events := [] }

/-- The identity fields read off an incoming Telegram user. -/
structure Ident where
  id : Int
  username : Option String
  first_name : Option String
  last_name : Option String
deriving DecidableEq

/-- The payload dict assembled by `usr_send` and consumed by
`Store.create_app`. -/
structure Payload where
  vin_norm : String
  vin_raw : String
  photo_reg_file_id : Option String
  photo_vin_file_id : Option String
  full_name : String
  owner_phone : String
  receiver_phone : String
  sdek_address : String
  client_id : Int
deriving DecidableEq

/-- `Store.upsert_user`: merge by id, refreshing handle and names; keep the
stored `created_at` when it is present and non-empty (`cur.get("created_at")
or now_iso()`), otherwise stamp `now`.  Returns the stored record and the
updated store. -/
def upsert_user (s : StoreData) (u : Ident) (now : String) : User × StoreData :=
  let created :=
    match lookupKey s.users u.id with
    | some c => if c.created_at = "" then now else c.created_at
    | none => now
  let usr : User :=
    { id := u.id, username := u.username, first_name := u.first_name,
      last_name := u.last_name, created_at := created }
  (usr, { s with users := setKey s.users u.id usr })

/-- `Store.get_user`. -/
def get_user (s : StoreData) (user_id : Int) : Option User :=
  lookupKey s.users user_id

/-- `Store.find_by_vin`: every stored application whose `vin_norm` matches. -/
def find_by_vin (s : StoreData) (vin : String) : List App :=
  (s.applications.map Prod.snd).filter fun a => decide (a.vin_norm = vin)

/-- `Store.get_app`. -/
def get_app (s : StoreData) (app_id : Nat) : Option App :=
  lookupKey s.applications app_id

/-- `Store.add_event`: append one audit record. -/
def add_event (s : StoreData) (app_id : Nat) (actor_id : Int) (action : String)
    (detail : String) (now : String) : StoreData :=
  { s with events :=
      s.events ++ [{ app_id := app_id, ts := now, actor_id := actor_id,
                     action := action, data := detail }] }

/-- `Store.update_app`: whole-record replace keyed by the record's own id. -/
def update_app (s : StoreData) (app : App) : StoreData :=
  { s with applications := setKey s.applications app.id app }

/-- The error raised by `Store.create_app` on a duplicate active VIN
(`ValueError("VIN already used by active application")`). -/
inductive CreateErr where
  | DuplicateVIN
deriving DecidableEq

/-- `Store.create_app`: refuse when some application with the same
`vin_norm` is not `REJECTED`; otherwise assign `next_app_id` (incrementing
it), build the record with status `NEW`, and store it. -/
def create_app (s : StoreData) (p : Payload) (now : String) :
    Except CreateErr (App × StoreData) :=
  if (find_by_vin s p.vin_norm).any (fun a => decide (a.status ≠ Status.REJECTED)) then
    .error .DuplicateVIN
  else
    let app_id := s.next_app_id
    let app : App :=
      { id := app_id, vin_norm := p.vin_norm, vin_raw := p.vin_raw,
        photo_reg_file_id := p.photo_reg_file_id,
        photo_vin_file_id := p.photo_vin_file_id,
        full_name := p.full_name,
        phone := p.receiver_phone,
        owner_phone := p.owner_phone,
        receiver_phone := p.receiver_phone,
        sdek_address := p.sdek_address,
        client_id := p.client_id,
        status := Status.NEW,
        created_at := now,
        mod_chat_message_id := none,
        approved_by := none, approved_at := none,
        shipped_by := none, shipped_at := none,
        tracking_number := none, tracking_photo_file_id := none }
    .ok (app, { s with next_app_id := app_id + 1,
                       applications := setKey s.applications app_id app })

/-- Outcomes of the moderation handlers that do not commit a mutation: the
permission check (`"Недостаточно прав"`), a missing application (the
handler returns silently or replies "Заявка не найдена"), and a guard
rejection (`"Нельзя принять этот статус"` / `"Уже отклонено/закрыто"` /
`"Заявка не в статусе APPROVED"`). -/
inductive ModErr where
  | notAuthorized
  | notFound
  | invalidTransition
deriving DecidableEq

/-- The store an erroring handler leaves behind: an error commits nothing,
so the caller keeps `s`; a success yields the returned store. -/
def resultStore (s : StoreData) : Except ModErr StoreData → StoreData
  | .ok s' => s'
  | .error _ => s

/-- `cb_approve`: owner only; blocked when the status is `REJECTED`,
`CLOSED` or `SHIPPED`; otherwise set `APPROVED` with approver and
timestamp, replace the record, and append an `APPROVE` event. -/
def cb_approve (ownerId : Int) (s : StoreData) (actor : Int) (app_id : Nat)
    (now : String) : Except ModErr StoreData :=
  if actor ≠ ownerId then .error .notAuthorized
  else
    match get_app s app_id with
    | none => .error .notFound
    | some app =>
      if app.status = Status.REJECTED ∨ app.status = Status.CLOSED ∨
          app.status = Status.SHIPPED then
        .error .invalidTransition
      else
        let app' := { app with status := Status.APPROVED,
                               approved_by := some actor,
                               approved_at := some now }
        .ok (add_event (update_app s app') app_id actor "APPROVE" "" now)

/-- `cb_reject` (the gate phase): owner only; blocked when the status is
`REJECTED` or `CLOSED`; on success it opens the two-phase reject flow for
`app_id` (the store is untouched until the comment arrives). -/
def cb_reject_gate (ownerId : Int) (s : StoreData) (actor : Int)
    (app_id : Nat) : Except ModErr Nat :=
  if actor ≠ ownerId then .error .notAuthorized
  else
    match get_app s app_id with
    | none => .error .notFound
    | some app =>
      if app.status = Status.REJECTED ∨ app.status = Status.CLOSED then
        .error .invalidTransition
      else .ok app_id

/-- `reject_comment_take` (the commit phase): owner only; looks the pending
application up again (with no status guard), sets `REJECTED`, replaces the
record, and appends a `REJECT` event carrying the comment. -/
def reject_comment_take (ownerId : Int) (s : StoreData) (actor : Int)
    (pending : Option Nat) (comment : String) (now : String) :
    Except ModErr StoreData :=
  if actor ≠ ownerId then .error .notAuthorized
  else
    match pending with
    | none => .error .notFound
    | some app_id =>
      match get_app s app_id with
      | none => .error .notFound
      | some app =>
        let app' := { app with status := Status.REJECTED }
        .ok (add_event (update_app s app') app.id actor "REJECT" comment now)

/-- `cb_ship` (the gate phase): any chat-admin or assistant (the oracle
`priv` stands for `is_chat_admin_or_assistant`); blocked unless the
application exists and its status is `APPROVED`; on success it opens the
two-phase ship flow for `app_id`. -/
def cb_ship_gate (priv : Int → Bool) (s : StoreData) (actor : Int)
    (app_id : Nat) : Except ModErr Nat :=
  if !priv actor then .error .notAuthorized
  else
    match get_app s app_id with
    | none => .error .invalidTransition
    | some app =>
      if app.status ≠ Status.APPROVED then .error .invalidTransition
      else .ok app_id

/-- `finalize_shipping` (the commit phase of the ship flow): looks the
pending application up again (with no status guard), sets `SHIPPED` with
shipper, timestamp and tracking-photo reference, replaces the record, and
appends a `SHIP` event. -/
def finalize_shipping (s : StoreData) (actor : Int) (app_id : Nat)
    (photo_id : Option String) (now : String) : Except ModErr StoreData :=
  match get_app s app_id with
  | none => .error .notFound
  | some app =>
    let app' := { app with status := Status.SHIPPED,
                           shipped_by := some actor,
                           shipped_at := some now,
                           tracking_number := none,
                           tracking_photo_file_id := photo_id }
    .ok (add_event (update_app s app') app_id actor "SHIP" "PHOTO" now)

example : is_valid_vin "1HGCM82633A004352" = true := by decide

example : is_valid_vin "1HGCM82633A00435" = false := by decide

example : is_valid_vin "1HGCM82633A00435I" = false := by decide

example : norm_vin " 1hgcm 82633a004352 " = "1HGCM82633A004352" := by decide

/-! ### Association-list lemmas -/

theorem hasKey_eq_false_iff {κ α : Type} [DecidableEq κ] {l : List (κ × α)}
    {k : κ} : hasKey l k = false ↔ ∀ p ∈ l, p.1 ≠ k := by
  induction l with
  | nil => simp [hasKey]
  | cons p rest ih => simp [hasKey, ih]

theorem hasKey_of_lookupKey {κ α : Type} [DecidableEq κ] {l : List (κ × α)}
    {k : κ} {a : α} (h : lookupKey l k = some a) : hasKey l k = true := by
  induction l with
  | nil => simp [lookupKey] at h
  | cons p rest ih =>
    by_cases hp : p.1 = k
    · simp [hasKey, hp]
    · simp only [lookupKey, if_neg hp] at h
      simp [hasKey, hp, ih h]

theorem mem_of_lookupKey {κ α : Type} [DecidableEq κ] {l : List (κ × α)}
    {k : κ} {a : α} (h : lookupKey l k = some a) : (k, a) ∈ l := by
  induction l with
  | nil => simp [lookupKey] at h
  | cons p rest ih =>
    by_cases hp : p.1 = k
    · simp only [lookupKey, if_pos hp, Option.some.injEq] at h
      have : p = (k, a) := by
        cases p with
        | mk k' a' => simp only at hp h; subst hp; subst h; rfl
      rw [← this]; exact List.mem_cons_self _ _
    · simp only [lookupKey, if_neg hp] at h
      exact List.mem_cons_of_mem _ (ih h)

theorem lookupKey_replaceAll {κ α : Type} [DecidableEq κ]
    (l : List (κ × α)) (k : κ) (v : α) (h : hasKey l k = true) :
    lookupKey (l.map (fun p => if p.1 = k then (k, v) else p)) k = some v := by
  induction l with
  | nil => simp [hasKey] at h
  | cons p rest ih =>
    by_cases hp : p.1 = k
    · simp [lookupKey, hp]
    · have h' : hasKey rest k = true := by
        simpa [hasKey, hp] using h
      simp [lookupKey, hp, ih h']

theorem lookupKey_replaceAll_ne {κ α : Type} [DecidableEq κ]
    (l : List (κ × α)) (k : κ) (v : α) (k' : κ) (hk : k' ≠ k) :
    lookupKey (l.map (fun p => if p.1 = k then (k, v) else p)) k'
      = lookupKey l k' := by
  induction l with
  | nil => rfl
  | cons p rest ih =>
    by_cases hp : p.1 = k
    · simp [lookupKey, hp, Ne.symm hk, ih]
    · by_cases hp' : p.1 = k' <;> simp [lookupKey, hp, hp', hk, ih]

theorem lookupKey_append_single {κ α : Type} [DecidableEq κ]
    (l : List (κ × α)) (k : κ) (v : α) (h : hasKey l k = false) :
    lookupKey (l ++ [(k, v)]) k = some v := by
  induction l with
  | nil => simp [lookupKey]
  | cons p rest ih =>
    have h' := hasKey_eq_false_iff.mp h
    have hp : p.1 ≠ k := h' p (List.mem_cons_self _ _)
    have hrest : hasKey rest k = false :=
      hasKey_eq_false_iff.mpr fun q hq => h' q (List.mem_cons_of_mem _ hq)
    simp [lookupKey, hp, ih hrest]

theorem lookupKey_append_single_ne {κ α : Type} [DecidableEq κ]
    (l : List (κ × α)) (k : κ) (v : α) (k' : κ) (hk : k' ≠ k) :
    lookupKey (l ++ [(k, v)]) k' = lookupKey l k' := by
  induction l with
  | nil => simp [lookupKey, Ne.symm hk]
  | cons p rest ih =>
    by_cases hp : p.1 = k' <;> simp [lookupKey, hp, ih]

theorem lookupKey_setKey_self {κ α : Type} [DecidableEq κ]
    (l : List (κ × α)) (k : κ) (v : α) :
    lookupKey (setKey l k v) k = some v := by
  unfold setKey
  by_cases h : hasKey l k = true
  · simp only [h, if_true]
    exact lookupKey_replaceAll l k v h
  · have h' : hasKey l k = false := by
      cases hb : hasKey l k with
      | false => rfl
      | true => exact absurd hb h
    simp only [h', Bool.false_eq_true, if_false]
    exact lookupKey_append_single l k v h'

theorem lookupKey_setKey_ne {κ α : Type} [DecidableEq κ]
    (l : List (κ × α)) (k : κ) (v : α) (k' : κ) (hk : k' ≠ k) :
    lookupKey (setKey l k v) k' = lookupKey l k' := by
  unfold setKey
  by_cases h : hasKey l k = true
  · simp only [h, if_true]
    exact lookupKey_replaceAll_ne l k v k' hk
  · have h' : hasKey l k = false := by
      cases hb : hasKey l k with
      | false => rfl
      | true => exact absurd hb h
    simp only [h', Bool.false_eq_true, if_false]
    exact lookupKey_append_single_ne l k v k' hk

theorem mem_setKey {κ α : Type} [DecidableEq κ] {l : List (κ × α)} {k : κ}
    {v : α} {x : κ × α} (hx : x ∈ setKey l k v) :
    (x ∈ l ∧ x.1 ≠ k) ∨ x = (k, v) := by
  unfold setKey at hx
  by_cases h : hasKey l k = true
  · simp only [h, if_true] at hx
    rcases List.mem_map.mp hx with ⟨y, hy, hfy⟩
    by_cases hyk : y.1 = k
    · right; rw [← hfy]; simp [hyk]
    · left
      rw [← hfy]
      simp only [hyk, if_false]
      exact ⟨hy, hyk⟩
  · have h' : hasKey l k = false := by
      cases hb : hasKey l k with
      | false => rfl
      | true => exact absurd hb h
    simp only [h', Bool.false_eq_true, if_false] at hx
    rcases List.mem_append.mp hx with hl | hr
    · exact Or.inl ⟨hl, hasKey_eq_false_iff.mp h' x hl⟩
    · right; simpa using hr

/-! ### C7: VIN validation -/

theorem ioq_data : "IOQ".data = ['I', 'O', 'Q'] := rfl

theorem vin_char_ok (c : Char) :
    (c.isAlphanum && !("IOQ".data.contains c)) = true ↔
      (c.isAlphanum = true ∧ c ≠ 'I' ∧ c ≠ 'O' ∧ c ≠ 'Q') := by
  simp only [ioq_data, Bool.and_eq_true, Bool.not_eq_true']
  constructor
  · rintro ⟨h1, h2⟩
    refine ⟨h1, ?_, ?_, ?_⟩ <;> intro hc <;> subst hc <;> simp at h2
  · rintro ⟨h1, h2, h3, h4⟩
    refine ⟨h1, ?_⟩
    simp [List.contains, List.elem_eq_mem, h2, h3, h4]

/-- C7: `is_valid_vin s` is true exactly when the normalized VIN
(uppercased, whitespace removed) has length 17 and every character is
alphanumeric and none of them is `I`, `O`, or `Q`; in particular any
normalized string of wrong length or containing `I`/`O`/`Q` is rejected. -/
theorem c7_is_valid_vin_characterization (s : String) :
    (is_valid_vin s = true ↔
      ((norm_vin s).length = 17 ∧ ∀ c ∈ (norm_vin s).data,
        c.isAlphanum = true ∧ c ≠ 'I' ∧ c ≠ 'O' ∧ c ≠ 'Q')) ∧
    (((norm_vin s).length ≠ 17 ∨ ∃ c ∈ (norm_vin s).data,
        c = 'I' ∨ c = 'O' ∨ c = 'Q') → is_valid_vin s = false) := by
  have main : is_valid_vin s = true ↔
      ((norm_vin s).length = 17 ∧ ∀ c ∈ (norm_vin s).data,
        c.isAlphanum = true ∧ c ≠ 'I' ∧ c ≠ 'O' ∧ c ≠ 'Q') := by
    unfold is_valid_vin
    by_cases h : (norm_vin s).length = 17
    · simp only [h, ne_eq, not_true_eq_false, if_false, List.all_eq_true,
        true_and]
      constructor
      · intro hall c hc
        exact (vin_char_ok c).mp (hall c hc)
      · intro hall c hc
        exact (vin_char_ok c).mpr (hall c hc)
    · simp only [h, ne_eq, not_false_eq_true, if_true, false_and,
        iff_false]
      simp
  refine ⟨main, ?_⟩
  intro hbad
  cases hv : is_valid_vin s with
  | false => rfl
  | true =>
    rcases main.mp hv with ⟨hlen, hall⟩
    rcases hbad with hlen' | ⟨c, hc, hioq⟩
    · exact absurd hlen hlen'
    · rcases hall c hc with ⟨_, hI, hO, hQ⟩
      rcases hioq with h | h | h <;> simp_all

/-- Witness for C7 at a concrete VIN. -/
theorem c7_witness :
    is_valid_vin "1HGCM82633A004352" = true ∧
    (norm_vin "1HGCM82633A004352").length = 17 ∧
    is_valid_vin "1HGCM82633A00435Q" = false := by
  refine ⟨by decide, by decide, ?_⟩
  exact (c7_is_valid_vin_characterization "1HGCM82633A00435Q").2
    (Or.inr ⟨'Q', by decide, by decide⟩)

/-! ### create_app characterization -/

theorem mem_find_by_vin {s : StoreData} {vin : String} {a : App} :
    a ∈ find_by_vin s vin ↔
      (∃ q ∈ s.applications, q.2 = a) ∧ a.vin_norm = vin := by
  unfold find_by_vin
  simp only [List.mem_filter, List.mem_map, decide_eq_true_eq]

theorem create_guard_false_iff (s : StoreData) (vin : String) :
    (find_by_vin s vin).any (fun a => decide (a.status ≠ Status.REJECTED))
        = false ↔
      ∀ a ∈ find_by_vin s vin, a.status = Status.REJECTED := by
  simp [List.any_eq_false]

theorem create_app_error_iff (s : StoreData) (p : Payload) (now : String) :
    create_app s p now = .error .DuplicateVIN ↔
      ∃ a ∈ find_by_vin s p.vin_norm, a.status ≠ Status.REJECTED := by
  unfold create_app
  by_cases h : (find_by_vin s p.vin_norm).any
      (fun a => decide (a.status ≠ Status.REJECTED)) = true
  · simp only [h, if_true, true_iff]
    rcases List.any_eq_true.mp h with ⟨a, ha, hdec⟩
    exact ⟨a, ha, of_decide_eq_true hdec⟩
  · have h' : (find_by_vin s p.vin_norm).any
        (fun a => decide (a.status ≠ Status.REJECTED)) = false := by
      cases hb : (find_by_vin s p.vin_norm).any
          (fun a => decide (a.status ≠ Status.REJECTED)) with
      | false => rfl
      | true => exact absurd hb h
    simp only [h', Bool.false_eq_true, if_false]
    refine iff_of_false (by simp) ?_
    rintro ⟨a, ha, hne⟩
    exact hne ((create_guard_false_iff s p.vin_norm).mp h' a ha)

theorem create_app_ok (s : StoreData) (p : Payload) (now : String)
    (h : (find_by_vin s p.vin_norm).any
      (fun a => decide (a.status ≠ Status.REJECTED)) = false) :
    ∃ a s', create_app s p now = .ok (a, s') ∧
      a.id = s.next_app_id ∧ a.status = Status.NEW ∧
      a.vin_norm = p.vin_norm ∧
      a.photo_reg_file_id = p.photo_reg_file_id ∧
      a.photo_vin_file_id = p.photo_vin_file_id ∧
      s'.next_app_id = s.next_app_id + 1 ∧
      s'.applications = setKey s.applications s.next_app_id a ∧
      s'.users = s.users ∧ s'.events = s.events := by
  unfold create_app
  simp only [h, Bool.false_eq_true, if_false]
  exact ⟨_, _, rfl, rfl, rfl, rfl, rfl, rfl, rfl, rfl, rfl, rfl⟩

/-- C2: with an active (non-`REJECTED`) application on the same normalized
VIN, `create_app` fails with `DuplicateVIN` (returning the error, so no
record is added); when every same-VIN application is `REJECTED` it succeeds
with a fresh `NEW` record; and after the sole active blocker is rejected
through `reject_comment_take`, a second `create_app` on the same VIN
succeeds. -/
theorem c2_create_app_duplicate_vin (s : StoreData) (p : Payload)
    (now : String) :
    ((∃ a ∈ find_by_vin s p.vin_norm, a.status ≠ Status.REJECTED) →
       create_app s p now = .error .DuplicateVIN) ∧
    ((∀ a ∈ find_by_vin s p.vin_norm, a.status = Status.REJECTED) →
       ∃ a s', create_app s p now = .ok (a, s') ∧
         a.status = Status.NEW ∧ a.vin_norm = p.vin_norm) ∧
    (∀ (ownerId : Int) (aid : Nat) (blocker : App) (comment t : String),
       get_app s aid = some blocker →
       (∀ q ∈ s.applications, q.1 = q.2.id) →
       (∀ b ∈ find_by_vin s p.vin_norm,
          b.status ≠ Status.REJECTED → b = blocker) →
       ∃ s₁, reject_comment_take ownerId s ownerId (some aid) comment t
           = .ok s₁ ∧
         ∃ a s', create_app s₁ p now = .ok (a, s') ∧
           a.status = Status.NEW) := by
  refine ⟨fun hdup => ?_, fun hall => ?_, ?_⟩
  · exact (create_app_error_iff s p now).mpr hdup
  · rcases create_app_ok s p now
        ((create_guard_false_iff s p.vin_norm).mpr hall) with
      ⟨a, s', heq, _, hst, hvin, _⟩
    exact ⟨a, s', heq, hst, hvin⟩
  · intro ownerId aid blocker comment t hget hkeys huniq
    have hrej : reject_comment_take ownerId s ownerId (some aid) comment t
        = .ok (add_event (update_app s { blocker with status := Status.REJECTED })
                blocker.id ownerId "REJECT" comment t) := by
      unfold reject_comment_take
      rw [if_neg (fun hc => hc rfl)]
      simp only [hget]
    refine ⟨_, hrej, ?_⟩
    set blocker' : App := { blocker with status := Status.REJECTED } with hb'
    set s₁ : StoreData :=
      add_event (update_app s blocker') blocker.id ownerId "REJECT" comment t
      with hs₁
    have happs : s₁.applications = setKey s.applications blocker.id blocker' := rfl
    have hall : ∀ a ∈ find_by_vin s₁ p.vin_norm, a.status = Status.REJECTED := by
      intro a ha
      rcases mem_find_by_vin.mp ha with ⟨⟨q, hq, hqa⟩, hvin⟩
      rw [happs] at hq
      rcases mem_setKey hq with ⟨hqold, hqne⟩ | hqnew
      · by_contra hne
        have hmem : a ∈ find_by_vin s p.vin_norm :=
          mem_find_by_vin.mpr ⟨⟨q, hqold, hqa⟩, hvin⟩
        have hab : a = blocker := huniq a hmem hne
        have : q.1 = q.2.id := hkeys q hqold
        rw [hqa, hab] at this
        exact hqne this
      · have : a = blocker' := by
          rw [← hqa, hqnew]
        rw [this]
    rcases create_app_ok s₁ p now
        ((create_guard_false_iff s₁ p.vin_norm).mpr hall) with
      ⟨a, s', heq, _, hst, _⟩
    exact ⟨a, s', heq, hst⟩

/-- A concrete payload used by witnesses. -/
def payloadA : Payload :=
  { vin_norm := "WVWZZZ1JZXW000001", vin_raw := "WVWZZZ1JZXW000001",
    photo_reg_file_id := some "ph1", photo_vin_file_id := none,
    full_name := "John Doe", owner_phone := "+70000000000",
    receiver_phone := "+70000000001", sdek_address := "Moscow",
    client_id := 100 }

/-- Run `create_app` and keep the new store (or the old one on failure). -/
def afterCreate (s : StoreData) (p : Payload) (now : String) : StoreData :=
  match create_app s p now with
  | .ok r => r.2
  | .error _ => s

/-- The store holding the single application created from `payloadA`. -/
def storeA : StoreData := afterCreate emptyStore payloadA "t1"

/-- The application record created from `payloadA` on the empty store. -/
def appA : App :=
  { id := 1, vin_norm := "WVWZZZ1JZXW000001", vin_raw := "WVWZZZ1JZXW000001",
    photo_reg_file_id := some "ph1", photo_vin_file_id := none,
    full_name := "John Doe", phone := "+70000000001",
    owner_phone := "+70000000000", receiver_phone := "+70000000001",
    sdek_address := "Moscow", client_id := 100,
    status := Status.NEW, created_at := "t1",
    mod_chat_message_id := none,
    approved_by := none, approved_at := none,
    shipped_by := none, shipped_at := none,
    tracking_number := none, tracking_photo_file_id := none }

/-- Witness for C2: the second identical submission fails with
`DuplicateVIN`, and after the blocker is rejected a new submission on the
same VIN goes through. -/
theorem c2_witness :
    create_app storeA payloadA "t2" = .error .DuplicateVIN ∧
    (∃ s₁, reject_comment_take 7 storeA 7 (some 1) "spam" "t3" = .ok s₁ ∧
      ∃ a s', create_app s₁ payloadA "t4" = .ok (a, s') ∧
        a.status = Status.NEW) := by
  refine ⟨(c2_create_app_duplicate_vin storeA payloadA "t2").1 (by decide), ?_⟩
  exact (c2_create_app_duplicate_vin storeA payloadA "t4").2.2
    7 1 appA "spam" "t3" (by decide) (by decide) (by decide)

/-! ### C8: upsert_user merge and frame -/

/-- C8: `upsert_user` merges by id.  For an id already stored (with the
non-empty `created_at` every stored record has), the handle and name fields
are refreshed while `created_at` is kept; for a new id `created_at` is
stamped with `now`.  Every other user key is untouched, as are the
applications, the event log, and the id counter. -/
theorem c8_upsert_user_frame (s : StoreData) (u : Ident) (now : String) :
    (∀ c, lookupKey s.users u.id = some c → c.created_at ≠ "" →
       (upsert_user s u now).1.created_at = c.created_at) ∧
    (lookupKey s.users u.id = none →
       (upsert_user s u now).1.created_at = now) ∧
    (upsert_user s u now).1.id = u.id ∧
    (upsert_user s u now).1.username = u.username ∧
    (upsert_user s u now).1.first_name = u.first_name ∧
    (upsert_user s u now).1.last_name = u.last_name ∧
    lookupKey (upsert_user s u now).2.users u.id
      = some (upsert_user s u now).1 ∧
    (∀ k, k ≠ u.id →
       lookupKey (upsert_user s u now).2.users k = lookupKey s.users k) ∧
    (upsert_user s u now).2.applications = s.applications ∧
    (upsert_user s u now).2.events = s.events ∧
    (upsert_user s u now).2.next_app_id = s.next_app_id := by
  refine ⟨?_, ?_, rfl, rfl, rfl, rfl, ?_, ?_, rfl, rfl, rfl⟩
  · intro c hc hne
    show (match lookupKey s.users u.id with
      | some c => if c.created_at = "" then now else c.created_at
      | none => now) = c.created_at
    rw [hc]
    simp [hne]
  · intro hc
    show (match lookupKey s.users u.id with
      | some c => if c.created_at = "" then now else c.created_at
      | none => now) = now
    rw [hc]
  · exact lookupKey_setKey_self _ _ _
  · intro k hk
    exact lookupKey_setKey_ne _ _ _ _ hk

/-- A first identity for the C8 witness. -/
def identA : Ident :=
  { id := 100, username := some "old", first_name := some "A",
    last_name := none }

/-- The same id with refreshed handle and names. -/
def identA2 : Ident :=
  { id := 100, username := some "newhandle", first_name := some "A",
    last_name := some "B" }

/-- Store holding `identA` upserted at time `u1`. -/
def w8s : StoreData := (upsert_user emptyStore identA "u1").2

/-- The record stored for `identA`. -/
def userA : User :=
  { id := 100, username := some "old", first_name := some "A",
    last_name := none, created_at := "u1" }

/-- Witness for C8: re-upserting id 100 refreshes the handle but keeps the
original `created_at`, and touches nothing else. -/
theorem c8_witness :
    (upsert_user w8s identA2 "u2").1.created_at = "u1" ∧
    (upsert_user w8s identA2 "u2").1.username = some "newhandle" ∧
    (upsert_user w8s identA2 "u2").2.applications = w8s.applications ∧
    (upsert_user w8s identA2 "u2").2.events = w8s.events := by
  have h := c8_upsert_user_frame w8s identA2 "u2"
  exact ⟨h.1 userA (by decide) (by decide), h.2.2.2.1,
    h.2.2.2.2.2.2.2.2.1, h.2.2.2.2.2.2.2.2.2.1⟩

/-! ### C1: approve / reject guards -/

/-- C1 (amended): with the owner acting on an existing application,
`cb_approve` fails with `InvalidTransition` exactly when the status is
`SHIPPED`, `REJECTED` or `CLOSED` (so approving an already-`APPROVED`
application succeeds again), and the reject gate fails with
`InvalidTransition` exactly when the status is `REJECTED` or `CLOSED` (so
the gate opens from `SHIPPED`); a blocked approve leaves the store — record
and event log — unchanged, and an unblocked approve appends one event. -/
theorem c1_transition_guards (ownerId : Int) (s : StoreData) (app_id : Nat)
    (app : App) (now : String) (hget : get_app s app_id = some app) :
    (cb_approve ownerId s ownerId app_id now = .error .invalidTransition ↔
       (app.status = Status.SHIPPED ∨ app.status = Status.REJECTED ∨
        app.status = Status.CLOSED)) ∧
    ((app.status = Status.SHIPPED ∨ app.status = Status.REJECTED ∨
        app.status = Status.CLOSED) →
       resultStore s (cb_approve ownerId s ownerId app_id now) = s) ∧
    (cb_reject_gate ownerId s ownerId app_id = .error .invalidTransition ↔
       (app.status = Status.REJECTED ∨ app.status = Status.CLOSED)) ∧
    ((app.status = Status.NEW ∨ app.status = Status.APPROVED) →
       ∃ s', cb_approve ownerId s ownerId app_id now = .ok s' ∧
         s'.events.length = s.events.length + 1) := by
  have happ : cb_approve ownerId s ownerId app_id now =
      (if app.status = Status.REJECTED ∨ app.status = Status.CLOSED ∨
          app.status = Status.SHIPPED
       then .error .invalidTransition
       else .ok (add_event (update_app s
              { app with status := Status.APPROVED,
                         approved_by := some ownerId,
                         approved_at := some now })
            app_id ownerId "APPROVE" "" now)) := by
    unfold cb_approve
    rw [if_neg (fun hc => hc rfl)]
    simp only [hget]
  have hrej : cb_reject_gate ownerId s ownerId app_id =
      (if app.status = Status.REJECTED ∨ app.status = Status.CLOSED
       then .error .invalidTransition else .ok app_id) := by
    unfold cb_reject_gate
    rw [if_neg (fun hc => hc rfl)]
    simp only [hget]
  refine ⟨?_, ?_, ?_, ?_⟩
  · rw [happ]
    by_cases hC : app.status = Status.REJECTED ∨ app.status = Status.CLOSED ∨
        app.status = Status.SHIPPED
    · rw [if_pos hC]
      exact iff_of_true rfl (by tauto)
    · rw [if_neg hC]
      exact iff_of_false (by simp) (by tauto)
  · intro hS
    have hC : app.status = Status.REJECTED ∨ app.status = Status.CLOSED ∨
        app.status = Status.SHIPPED := by tauto
    rw [happ, if_pos hC]
    rfl
  · rw [hrej]
    by_cases hC : app.status = Status.REJECTED ∨ app.status = Status.CLOSED
    · rw [if_pos hC]
      exact iff_of_true rfl (by tauto)
    · rw [if_neg hC]
      exact iff_of_false (by simp) (by tauto)
  · intro hS
    have hC : ¬(app.status = Status.REJECTED ∨ app.status = Status.CLOSED ∨
        app.status = Status.SHIPPED) := by
      rcases hS with h | h <;> simp [h]
    rw [happ, if_neg hC]
    exact ⟨_, rfl, by simp [add_event, update_app]⟩

deriving instance DecidableEq for Except

/-- The store after `appA` is approved by owner 7 at time `t2`. -/
def storeApproved : StoreData :=
  resultStore storeA (cb_approve 7 storeA 7 1 "t2")

/-- The store after a second approve of the same application at `t3`. -/
def storeApproved2 : StoreData :=
  resultStore storeApproved (cb_approve 7 storeApproved 7 1 "t3")

/-- Counterexample to C1 as stated: application 1 is already `APPROVED`,
yet a second `cb_approve` succeeds (it does not fail with
`InvalidTransition`), appends an `APPROVE` event, and overwrites
`approved_at` — the record does not stay unchanged. -/
theorem c1_counterexample :
    (get_app storeApproved 1).map App.status = some Status.APPROVED ∧
    cb_approve 7 storeApproved 7 1 "t3" = .ok storeApproved2 ∧
    storeApproved2.events.length = storeApproved.events.length + 1 ∧
    (get_app storeApproved 1).map App.approved_at = some (some "t2") ∧
    (get_app storeApproved2 1).map App.approved_at = some (some "t3") := by
  exact ⟨by decide, by decide, by decide, by decide, by decide⟩

/-- The store after application 1 is rejected. -/
def storeRej : StoreData :=
  resultStore storeA (reject_comment_take 7 storeA 7 (some 1) "c" "t2")

/-- The rejected record held by `storeRej`. -/
def appRej : App := { appA with status := Status.REJECTED }

/-- Witness for the amended C1 at a `REJECTED` application: both approve
and the reject gate fail with `InvalidTransition` and the store is kept. -/
theorem c1_witness :
    cb_approve 7 storeRej 7 1 "t9" = .error .invalidTransition ∧
    resultStore storeRej (cb_approve 7 storeRej 7 1 "t9") = storeRej ∧
    cb_reject_gate 7 storeRej 7 1 = .error .invalidTransition := by
  have h := c1_transition_guards 7 storeRej 1 appRej "t9" (by decide)
  exact ⟨h.1.mpr (by decide), h.2.1 (by decide), h.2.2.1.mpr (by decide)⟩

/-! ### C4: ship flow -/

/-- C4: from `NEW` the ship gate fails with `InvalidTransition`; approving
as the owner and then shipping with a tracking photo yields `SHIPPED` with
shipper, timestamp and photo reference stored, and a `SHIP` audit event
appended. -/
theorem c4_ship_flow (ownerId : Int) (priv : Int → Bool) (s : StoreData)
    (app_id : Nat) (app : App) (photo t1 t2 : String)
    (hget : get_app s app_id = some app) (hid : app.id = app_id)
    (hnew : app.status = Status.NEW) (hpriv : priv ownerId = true) :
    cb_ship_gate priv s ownerId app_id = .error .invalidTransition ∧
    ∃ s₁, cb_approve ownerId s ownerId app_id t1 = .ok s₁ ∧
      cb_ship_gate priv s₁ ownerId app_id = .ok app_id ∧
      ∃ s₂, finalize_shipping s₁ ownerId app_id (some photo) t2 = .ok s₂ ∧
        ∃ a₂, get_app s₂ app_id = some a₂ ∧
          a₂.status = Status.SHIPPED ∧ a₂.shipped_by = some ownerId ∧
          a₂.shipped_at = some t2 ∧ a₂.tracking_photo_file_id = some photo ∧
          s₂.events.getLast? = some (Event.mk app_id t2 ownerId "SHIP" "PHOTO") := by
  set app₁ : App := { app with status := Status.APPROVED,
                               approved_by := some ownerId,
                               approved_at := some t1 } with happ₁
  set s₁ : StoreData :=
    add_event (update_app s app₁) app_id ownerId "APPROVE" "" t1 with hs₁
  have hgate0 : cb_ship_gate priv s ownerId app_id
      = .error .invalidTransition := by
    unfold cb_ship_gate
    rw [if_neg (by simp [hpriv])]
    simp only [hget]
    rw [if_pos (by rw [hnew]; intro hc; cases hc)]
  have happrove : cb_approve ownerId s ownerId app_id t1 = .ok s₁ := by
    unfold cb_approve
    rw [if_neg (fun hc => hc rfl)]
    simp only [hget]
    rw [if_neg (by rw [hnew]; rintro (h | h | h) <;> cases h)]
  have hget₁ : get_app s₁ app_id = some app₁ := by
    show lookupKey (setKey s.applications app₁.id app₁) app_id = some app₁
    have : app₁.id = app_id := hid
    rw [this]
    exact lookupKey_setKey_self _ _ _
  have hgate₁ : cb_ship_gate priv s₁ ownerId app_id = .ok app_id := by
    unfold cb_ship_gate
    rw [if_neg (by simp [hpriv])]
    simp only [hget₁]
    rw [if_neg (by simp)]
  set app₂ : App := { app₁ with status := Status.SHIPPED,
                                shipped_by := some ownerId,
                                shipped_at := some t2,
                                tracking_number := none,
                                tracking_photo_file_id := some photo }
    with happ₂
  set s₂ : StoreData :=
    add_event (update_app s₁ app₂) app_id ownerId "SHIP" "PHOTO" t2 with hs₂
  have hfin : finalize_shipping s₁ ownerId app_id (some photo) t2
      = .ok s₂ := by
    unfold finalize_shipping
    simp only [hget₁]
  have hget₂ : get_app s₂ app_id = some app₂ := by
    show lookupKey (setKey s₁.applications app₂.id app₂) app_id = some app₂
    have : app₂.id = app_id := hid
    rw [this]
    exact lookupKey_setKey_self _ _ _
  refine ⟨hgate0, s₁, happrove, hgate₁, s₂, hfin, app₂, hget₂,
    rfl, rfl, rfl, rfl, ?_⟩
  show (( update_app s₁ app₂).events ++ [_]).getLast? = _
  rw [List.getLast?_concat]

/-- Witness for C4 on the concrete `NEW` application of `storeA`. -/
theorem c4_witness :
    cb_ship_gate (fun _ => true) storeA 7 1 = .error .invalidTransition ∧
    ∃ s₁, cb_approve 7 storeA 7 1 "t2" = .ok s₁ ∧
      cb_ship_gate (fun _ => true) s₁ 7 1 = .ok 1 ∧
      ∃ s₂, finalize_shipping s₁ 7 1 (some "tp") "t3" = .ok s₂ ∧
        ∃ a₂, get_app s₂ 1 = some a₂ ∧ a₂.status = Status.SHIPPED := by
  have h := c4_ship_flow 7 (fun _ => true) storeA 1 appA "tp" "t2" "t3"
    (by decide) (by decide) (by decide) rfl
  rcases h with ⟨hgate, s₁, h1, h2, s₂, h3, a₂, h4, h5, _⟩
  exact ⟨hgate, s₁, h1, h2, s₂, h3, a₂, h4, h5⟩

/-! ### Inversion lemmas for the mutating handlers -/

theorem create_app_ok_inv {s : StoreData} {p : Payload} {now : String}
    {a : App} {s' : StoreData} (h : create_app s p now = .ok (a, s')) :
    (∀ b ∈ find_by_vin s p.vin_norm, b.status = Status.REJECTED) ∧
    a.id = s.next_app_id ∧ a.vin_norm = p.vin_norm ∧
    a.status = Status.NEW ∧
    a.photo_reg_file_id = p.photo_reg_file_id ∧
    a.photo_vin_file_id = p.photo_vin_file_id ∧
    s' = { s with next_app_id := s.next_app_id + 1,
                  applications := setKey s.applications s.next_app_id a } := by
  unfold create_app at h
  by_cases hg : (find_by_vin s p.vin_norm).any
      (fun b => decide (b.status ≠ Status.REJECTED)) = true
  · rw [if_pos hg] at h
    exact Except.noConfusion h
  · have hg' : (find_by_vin s p.vin_norm).any
        (fun b => decide (b.status ≠ Status.REJECTED)) = false := by
      cases hb : (find_by_vin s p.vin_norm).any
          (fun b => decide (b.status ≠ Status.REJECTED)) with
      | false => rfl
      | true => exact absurd hb hg
    rw [if_neg hg] at h
    injection h with h1
    rw [Prod.mk.injEq] at h1
    rcases h1 with ⟨ha, hs⟩
    subst ha
    subst hs
    exact ⟨(create_guard_false_iff s p.vin_norm).mp hg', rfl, rfl, rfl,
      rfl, rfl, rfl⟩

theorem cb_approve_ok_inv {o actor : Int} {s s' : StoreData} {appId : Nat}
    {now : String} (h : cb_approve o s actor appId now = .ok s') :
    actor = o ∧ ∃ app, get_app s appId = some app ∧
      ¬(app.status = Status.REJECTED ∨ app.status = Status.CLOSED ∨
        app.status = Status.SHIPPED) ∧
      s' = add_event (update_app s
            { app with status := Status.APPROVED,
                       approved_by := some actor,
                       approved_at := some now })
          appId actor "APPROVE" "" now := by
  unfold cb_approve at h
  by_cases hact : actor ≠ o
  · rw [if_pos hact] at h
    exact Except.noConfusion h
  · rw [if_neg hact] at h
    cases hg : get_app s appId with
    | none =>
      simp only [hg] at h
      exact Except.noConfusion h
    | some app =>
      simp only [hg] at h
      by_cases hb : app.status = Status.REJECTED ∨
          app.status = Status.CLOSED ∨ app.status = Status.SHIPPED
      · rw [if_pos hb] at h
        exact Except.noConfusion h
      · rw [if_neg hb] at h
        injection h with h1
        exact ⟨Decidable.not_not.mp hact, app, rfl, hb, h1.symm⟩

theorem reject_commit_ok_inv {o actor : Int} {s s' : StoreData} {aid : Nat}
    {comment now : String}
    (h : reject_comment_take o s actor (some aid) comment now = .ok s') :
    actor = o ∧ ∃ app, get_app s aid = some app ∧
      s' = add_event (update_app s { app with status := Status.REJECTED })
          app.id actor "REJECT" comment now := by
  unfold reject_comment_take at h
  by_cases hact : actor ≠ o
  · rw [if_pos hact] at h
    exact Except.noConfusion h
  · rw [if_neg hact] at h
    cases hg : get_app s aid with
    | none =>
      simp only [hg] at h
      exact Except.noConfusion h
    | some app =>
      simp only [hg] at h
      injection h with h1
      exact ⟨Decidable.not_not.mp hact, app, rfl, h1.symm⟩

theorem cb_ship_gate_ok_inv {pr : Int → Bool} {s : StoreData} {actor : Int}
    {appId aid : Nat} (h : cb_ship_gate pr s actor appId = .ok aid) :
    aid = appId ∧ pr actor = true ∧
    ∃ app, get_app s appId = some app ∧ app.status = Status.APPROVED := by
  unfold cb_ship_gate at h
  by_cases hpr : (!pr actor) = true
  · rw [if_pos hpr] at h
    exact Except.noConfusion h
  · rw [if_neg hpr] at h
    cases hg : get_app s appId with
    | none =>
      simp only [hg] at h
      exact Except.noConfusion h
    | some app =>
      simp only [hg] at h
      by_cases hb : app.status ≠ Status.APPROVED
      · rw [if_pos hb] at h
        exact Except.noConfusion h
      · rw [if_neg hb] at h
        injection h with h1
        exact ⟨h1.symm, by simpa using hpr, app, rfl,
          Decidable.not_not.mp hb⟩

theorem finalize_ok_inv {s s' : StoreData} {actor : Int} {aid : Nat}
    {photo : Option String} {now : String}
    (h : finalize_shipping s actor aid photo now = .ok s') :
    ∃ app, get_app s aid = some app ∧
      s' = add_event (update_app s
            { app with status := Status.SHIPPED,
                       shipped_by := some actor,
                       shipped_at := some now,
                       tracking_number := none,
                       tracking_photo_file_id := photo })
          aid actor "SHIP" "PHOTO" now := by
  unfold finalize_shipping at h
  cases hg : get_app s aid with
  | none =>
    simp only [hg] at h
    exact Except.noConfusion h
  | some app =>
    simp only [hg] at h
    injection h with h1
    exact ⟨app, rfl, h1.symm⟩

/-! ### Store invariants and reachability -/

/-- Every stored application sits under the key `str(id)` of its own id
(modelled by the id itself) and its id is below the `next_app_id` counter. -/
def IdsOkL (apps : List (Nat × App)) (n : Nat) : Prop :=
  ∀ q ∈ apps, q.1 = q.2.id ∧ q.2.id < n

/-- Soft uniqueness: two distinct stored applications sharing a `vin_norm`
cannot both be in a status other than `REJECTED`. -/
def VinUniqueL (apps : List (Nat × App)) : Prop :=
  ∀ p ∈ apps, ∀ q ∈ apps, p.1 ≠ q.1 → p.2.vin_norm = q.2.vin_norm →
    p.2.status = Status.REJECTED ∨ q.2.status = Status.REJECTED

/-- Combined store invariant. -/
def StoreInv (s : StoreData) : Prop :=
  IdsOkL s.applications s.next_app_id ∧ VinUniqueL s.applications

/-- The claimed per-VIN soft-uniqueness property of a store state. -/
def VinUnique (s : StoreData) : Prop :=
  VinUniqueL s.applications

theorem storeInv_create_ok {s : StoreData} {p : Payload} {now : String}
    {a : App} {s' : StoreData} (hInv : StoreInv s)
    (hc : create_app s p now = .ok (a, s')) : StoreInv s' := by
  rcases create_app_ok_inv hc with ⟨hall, hid, hvin, _, _, _, hs⟩
  subst hs
  have hfresh : hasKey s.applications s.next_app_id = false := by
    apply hasKey_eq_false_iff.mpr
    intro q hq
    have h1 := hInv.1 q hq
    rw [h1.1]
    exact Nat.ne_of_lt h1.2
  have happs : setKey s.applications s.next_app_id a
      = s.applications ++ [(s.next_app_id, a)] := by
    simp [setKey, hfresh]
  constructor
  · intro q hq
    have hq' : q ∈ setKey s.applications s.next_app_id a := hq
    rw [happs] at hq'
    rcases List.mem_append.mp hq' with hqo | hqn
    · have h1 := hInv.1 q hqo
      exact ⟨h1.1, Nat.lt_succ_of_lt h1.2⟩
    · have hqe : q = (s.next_app_id, a) := by simpa using hqn
      rw [hqe]
      exact ⟨hid.symm, by rw [hid]; exact Nat.lt_succ_self _⟩
  · intro q hq r hr hne hvineq
    have hq' : q ∈ setKey s.applications s.next_app_id a := hq
    have hr' : r ∈ setKey s.applications s.next_app_id a := hr
    rw [happs] at hq' hr'
    rcases List.mem_append.mp hq' with hqo | hqn <;>
      rcases List.mem_append.mp hr' with hro | hrn
    · exact hInv.2 q hqo r hro hne hvineq
    · have hre : r = (s.next_app_id, a) := by simpa using hrn
      rw [hre] at hvineq ⊢
      left
      apply hall
      exact mem_find_by_vin.mpr ⟨⟨q, hqo, rfl⟩, hvineq.trans hvin⟩
    · have hqe : q = (s.next_app_id, a) := by simpa using hqn
      rw [hqe] at hvineq ⊢
      right
      apply hall
      exact mem_find_by_vin.mpr ⟨⟨r, hro, rfl⟩, hvineq.symm.trans hvin⟩
    · have hqe : q = (s.next_app_id, a) := by simpa using hqn
      have hre : r = (s.next_app_id, a) := by simpa using hrn
      rw [hqe, hre] at hne
      exact absurd rfl hne

theorem storeInv_replace {s : StoreData} {k : Nat} {a a' : App}
    (hInv : StoreInv s) (hget : get_app s k = some a)
    (hid : a'.id = a.id) (hvin : a'.vin_norm = a.vin_norm)
    (hst : a'.status = Status.REJECTED ∨ a.status ≠ Status.REJECTED) :
    StoreInv { s with applications := setKey s.applications a'.id a' } := by
  have hmem : (k, a) ∈ s.applications := mem_of_lookupKey hget
  have hk : k = a.id := (hInv.1 (k, a) hmem).1
  have halt : a.id < s.next_app_id := (hInv.1 (k, a) hmem).2
  constructor
  · intro q hq
    have hq' : q ∈ setKey s.applications a'.id a' := hq
    rcases mem_setKey hq' with ⟨hold, _⟩ | hnew
    · exact hInv.1 q hold
    · rw [hnew]
      exact ⟨rfl, by rw [hid]; exact halt⟩
  · intro q hq r hr hne hvineq
    have hq' : q ∈ setKey s.applications a'.id a' := hq
    have hr' : r ∈ setKey s.applications a'.id a' := hr
    rcases mem_setKey hq' with ⟨hqo, hqne⟩ | hqn <;>
      rcases mem_setKey hr' with ⟨hro, hrne⟩ | hrn
    · exact hInv.2 q hqo r hro hne hvineq
    · rw [hrn] at hvineq ⊢
      rcases hst with hrej | hane
      · right
        exact hrej
      · left
        have hqk : q.1 ≠ k := by
          rw [hk, ← hid]
          exact hqne
        have hdisj := hInv.2 q hqo (k, a) hmem hqk (hvineq.trans hvin)
        rcases hdisj with h | h
        · exact h
        · exact absurd h hane
    · rw [hqn] at hvineq ⊢
      rcases hst with hrej | hane
      · left
        exact hrej
      · right
        have hrk : r.1 ≠ k := by
          rw [hk, ← hid]
          exact hrne
        have hdisj := hInv.2 (k, a) hmem r hro (fun hc => hrk hc.symm)
          (hvin.symm.trans hvineq)
        rcases hdisj with h | h
        · exact absurd h hane
        · exact h
    · rw [hqn, hrn] at hne
      exact absurd rfl hne

/-- One serialized store mutation, as dispatched by the handlers.  The
two-phase reject and ship flows are taken atomically here: the gate check
and the commit run against the same store state, with nothing interleaved. -/
inductive Op where
  | create (p : Payload) (now : String)
  | approve (actor : Int) (appId : Nat) (now : String)
  | reject (actor : Int) (appId : Nat) (comment now : String)
  | ship (actor : Int) (appId : Nat) (photo : Option String) (now : String)
  | upsert (u : Ident) (now : String)
  | event (appId : Nat) (actor : Int) (action detail now : String)

/-- The atomic reject transition: gate then commit on the same state. -/
def rejectStep (o : Int) (s : StoreData) (actor : Int) (appId : Nat)
    (comment now : String) : StoreData :=
  match cb_reject_gate o s actor appId with
  | .ok aid => resultStore s (reject_comment_take o s actor (some aid) comment now)
  | .error _ => s

/-- The atomic ship transition: gate then commit on the same state. -/
def shipStep (pr : Int → Bool) (s : StoreData) (actor : Int) (appId : Nat)
    (photo : Option String) (now : String) : StoreData :=
  match cb_ship_gate pr s actor appId with
  | .ok aid => resultStore s (finalize_shipping s actor aid photo now)
  | .error _ => s

/-- Apply one operation to the store (failed guards leave it unchanged). -/
def applyOp (o : Int) (pr : Int → Bool) (s : StoreData) : Op → StoreData
  | .create p now => afterCreate s p now
  | .approve actor appId now => resultStore s (cb_approve o s actor appId now)
  | .reject actor appId comment now => rejectStep o s actor appId comment now
  | .ship actor appId photo now => shipStep pr s actor appId photo now
  | .upsert u now => (upsert_user s u now).2
  | .event appId actor action detail now =>
      add_event s appId actor action detail now

/-- Store states reachable from the empty store through the serialized
operations. -/
inductive Reachable (o : Int) (pr : Int → Bool) : StoreData → Prop where
  | init : Reachable o pr emptyStore
  | step {s : StoreData} (hs : Reachable o pr s) (op : Op) :
      Reachable o pr (applyOp o pr s op)

theorem storeInv_preserved (o : Int) (pr : Int → Bool) (s : StoreData)
    (hInv : StoreInv s) (op : Op) : StoreInv (applyOp o pr s op) := by
  cases op with
  | create p now =>
    show StoreInv (afterCreate s p now)
    unfold afterCreate
    cases hc : create_app s p now with
    | ok r =>
      cases r with
      | mk a s' => exact storeInv_create_ok hInv hc
    | error e => exact hInv
  | approve actor appId now =>
    show StoreInv (resultStore s (cb_approve o s actor appId now))
    cases hc : cb_approve o s actor appId now with
    | error e => exact hInv
    | ok s' =>
      rcases cb_approve_ok_inv hc with ⟨-, app, hget, hguard, hs⟩
      subst hs
      exact storeInv_replace hInv hget rfl rfl
        (Or.inr fun hr => hguard (Or.inl hr))
  | reject actor appId comment now =>
    show StoreInv (rejectStep o s actor appId comment now)
    unfold rejectStep
    cases hg : cb_reject_gate o s actor appId with
    | error e => exact hInv
    | ok aid =>
      show StoreInv (resultStore s
        (reject_comment_take o s actor (some aid) comment now))
      cases hc : reject_comment_take o s actor (some aid) comment now with
      | error e => exact hInv
      | ok s' =>
        rcases reject_commit_ok_inv hc with ⟨-, app, hget, hs⟩
        subst hs
        exact @storeInv_replace s aid app
          { app with status := Status.REJECTED } hInv hget rfl rfl
          (Or.inl rfl)
  | ship actor appId photo now =>
    show StoreInv (shipStep pr s actor appId photo now)
    unfold shipStep
    cases hg : cb_ship_gate pr s actor appId with
    | error e => exact hInv
    | ok aid =>
      show StoreInv (resultStore s (finalize_shipping s actor aid photo now))
      cases hc : finalize_shipping s actor aid photo now with
      | error e => exact hInv
      | ok s' =>
        rcases cb_ship_gate_ok_inv hg with ⟨haid, -, app, hget, happr⟩
        rcases finalize_ok_inv hc with ⟨app2, hget2, hs⟩
        subst haid
        have happ2 : app2 = app := by
          rw [hget] at hget2
          injection hget2 with h1
          exact h1.symm
        subst happ2
        subst hs
        exact storeInv_replace hInv hget2 rfl rfl
          (Or.inr (by rw [happr]; intro hc2; cases hc2))
  | upsert u now => exact hInv
  | event appId actor action detail now => exact hInv

theorem reachable_storeInv {o : Int} {pr : Int → Bool} {s : StoreData}
    (h : Reachable o pr s) : StoreInv s := by
  induction h with
  | init =>
    constructor
    · intro q hq
      cases hq
    · intro q hq
      cases hq
  | step hs op ih => exact storeInv_preserved _ _ _ ih op

theorem applyOp_next_mono (o : Int) (pr : Int → Bool) (s : StoreData)
    (op : Op) : s.next_app_id ≤ (applyOp o pr s op).next_app_id := by
  cases op with
  | create p now =>
    show s.next_app_id ≤ (afterCreate s p now).next_app_id
    unfold afterCreate
    cases hc : create_app s p now with
    | ok r =>
      cases r with
      | mk a s' =>
        rcases create_app_ok_inv hc with ⟨-, -, -, -, -, -, hs⟩
        show s.next_app_id ≤ s'.next_app_id
        rw [hs]
        exact Nat.le_succ _
    | error e => exact Nat.le_refl _
  | approve actor appId now =>
    show s.next_app_id ≤
      (resultStore s (cb_approve o s actor appId now)).next_app_id
    cases hc : cb_approve o s actor appId now with
    | error e => exact Nat.le_refl _
    | ok s' =>
      rcases cb_approve_ok_inv hc with ⟨-, app, -, -, hs⟩
      show s.next_app_id ≤ s'.next_app_id
      rw [hs]
      exact Nat.le_refl _
  | reject actor appId comment now =>
    show s.next_app_id ≤ (rejectStep o s actor appId comment now).next_app_id
    unfold rejectStep
    cases hg : cb_reject_gate o s actor appId with
    | error e => exact Nat.le_refl _
    | ok aid =>
      show s.next_app_id ≤ (resultStore s
        (reject_comment_take o s actor (some aid) comment now)).next_app_id
      cases hc : reject_comment_take o s actor (some aid) comment now with
      | error e => exact Nat.le_refl _
      | ok s' =>
        rcases reject_commit_ok_inv hc with ⟨-, app, -, hs⟩
        show s.next_app_id ≤ s'.next_app_id
        rw [hs]
        exact Nat.le_refl _
  | ship actor appId photo now =>
    show s.next_app_id ≤ (shipStep pr s actor appId photo now).next_app_id
    unfold shipStep
    cases hg : cb_ship_gate pr s actor appId with
    | error e => exact Nat.le_refl _
    | ok aid =>
      show s.next_app_id ≤
        (resultStore s (finalize_shipping s actor aid photo now)).next_app_id
      cases hc : finalize_shipping s actor aid photo now with
      | error e => exact Nat.le_refl _
      | ok s' =>
        rcases finalize_ok_inv hc with ⟨app, -, hs⟩
        show s.next_app_id ≤ s'.next_app_id
        rw [hs]
        exact Nat.le_refl _
  | upsert u now => exact Nat.le_refl _
  | event appId actor action detail now => exact Nat.le_refl _

/-! ### C3: per-VIN soft uniqueness -/

/-- C3 (amended): in every store state reachable from the empty store by
the serialized operations — with each two-phase reject/ship transition's
gate and commit applied atomically, nothing interleaved between them — at
most one application per `vin_norm` has a status other than `REJECTED`.
(With interleaving between a ship gate and its commit the code violates
this; see the counterexample.) -/
theorem c3_vin_soft_uniqueness (o : Int) (pr : Int → Bool) (s : StoreData)
    (h : Reachable o pr s) : VinUnique s :=
  (reachable_storeInv h).2

/-- Witness for the amended C3 on a concrete reachable store. -/
theorem c3_witness : VinUnique storeA :=
  c3_vin_soft_uniqueness 7 (fun _ => true) storeA
    (Reachable.step Reachable.init (Op.create payloadA "t1"))

/-- Same VIN as `payloadA`, submitted by a second client. -/
def payloadB : Payload := { payloadA with client_id := 200 }

/-- `storeApproved` after the owner rejects application 1 (two-phase
commit). -/
def cxRejected : StoreData :=
  resultStore storeApproved
    (reject_comment_take 7 storeApproved 7 (some 1) "dup" "t4")

/-- `cxRejected` after a second application on the same VIN is created. -/
def cxTwo : StoreData := afterCreate cxRejected payloadB "t5"

/-- `cxTwo` after the dangling ship commit fires on application 1. -/
def cxBroken : StoreData :=
  resultStore cxTwo (finalize_shipping cxTwo 9 1 (some "trackphoto") "t6")

/-- Counterexample to C3 as stated: running the code's own handler
functions from the empty store — create, approve, ship gate (passes while
the status is `APPROVED`), then reject gate + commit, a second create on
the now-freed VIN, and finally the pending ship commit, which rechecks
nothing — yields a state with two applications sharing `vin_norm` and both
in a status other than `REJECTED`. -/
theorem c3_counterexample :
    cb_ship_gate (fun _ => true) storeApproved 9 1 = .ok 1 ∧
    cb_reject_gate 7 storeApproved 7 1 = .ok 1 ∧
    reject_comment_take 7 storeApproved 7 (some 1) "dup" "t4"
      = .ok cxRejected ∧
    (get_app cxTwo 2).map App.status = some Status.NEW ∧
    finalize_shipping cxTwo 9 1 (some "trackphoto") "t6" = .ok cxBroken ∧
    (get_app cxBroken 1).map App.status = some Status.SHIPPED ∧
    (get_app cxBroken 2).map App.status = some Status.NEW ∧
    (get_app cxBroken 1).map App.vin_norm = some "WVWZZZ1JZXW000001" ∧
    (get_app cxBroken 2).map App.vin_norm = some "WVWZZZ1JZXW000001" ∧
    ¬ VinUnique cxBroken := by
  refine ⟨by decide, by decide, by decide, by decide, by decide, by decide,
    by decide, by decide, by decide, ?_⟩
  unfold VinUnique VinUniqueL
  decide

/-! ### C5: id assignment -/

/-- C5: on a reachable store, a successful `create_app` hands out exactly
the current `next_app_id`, bumps the counter by one, and the new id differs
from the id of every stored application (ids are never reused — rejected
records stay in the store and keep their ids); the counter never decreases
under any operation, and a subsequent successful creation receives a
strictly larger id. -/
theorem c5_id_assignment (o : Int) (pr : Int → Bool) (s : StoreData)
    (h : Reachable o pr s) (p : Payload) (now : String) (a : App)
    (s' : StoreData) (hc : create_app s p now = .ok (a, s')) :
    a.id = s.next_app_id ∧ s'.next_app_id = s.next_app_id + 1 ∧
    (∀ q ∈ s.applications, q.2.id ≠ a.id) ∧
    (∀ op, s.next_app_id ≤ (applyOp o pr s op).next_app_id) ∧
    (∀ p2 now2 b s'', create_app s' p2 now2 = .ok (b, s'') →
       a.id < b.id) := by
  rcases create_app_ok_inv hc with ⟨-, hid, -, -, -, -, hs⟩
  have hInv := reachable_storeInv h
  refine ⟨hid, by rw [hs], ?_, ?_, ?_⟩
  · intro q hq
    have hlt := (hInv.1 q hq).2
    rw [hid]
    exact Nat.ne_of_lt hlt
  · intro op
    exact applyOp_next_mono o pr s op
  · intro p2 now2 b s'' hc2
    rcases create_app_ok_inv hc2 with ⟨-, hid2, -, -, -, -, -⟩
    rw [hid, hid2, hs]
    exact Nat.lt_succ_self _

/-- Witness for C5 at the first creation on the empty store. -/
theorem c5_witness :
    appA.id = emptyStore.next_app_id ∧
    storeA.next_app_id = emptyStore.next_app_id + 1 := by
  have h := c5_id_assignment 7 (fun _ => true) emptyStore Reachable.init
    payloadA "t1" appA storeA (by decide)
  exact ⟨h.1, h.2.1⟩

/-! ### C6: persistence round trip

`Store.save` serializes `self.data` with `json.dump` into a staged file that
atomically replaces the durable one; `Store.load` reads it back wholesale
with `json.load`.  The text rendering is abstracted into a JSON tree; the
dicts keyed by `str(id)` are modelled by integer-keyed map nodes, the
decimal-string encoding of an id being injective. -/

inductive JVal where
  | null
  | jstr (s : String)
  | jint (n : Int)
  | jarr (xs : List JVal)
  | jobj (kvs : List (String × JVal))
  | jmapN (kvs : List (Nat × JVal))
  | jmapZ (kvs : List (Int × JVal))

def encOptStr : Option String → JVal
  | none => .null
  | some s => .jstr s

def encOptInt : Option Int → JVal
  | none => .null
  | some n => .jint n

def statusStr : Status → String
  | .NEW => "NEW"
  | .APPROVED => "APPROVED"
  | .SHIPPED => "SHIPPED"
  | .CLOSED => "CLOSED"
  | .REJECTED => "REJECTED"

def statusOfStr (s : String) : Option Status :=
  if s = "NEW" then some .NEW
  else if s = "APPROVED" then some .APPROVED
  else if s = "SHIPPED" then some .SHIPPED
  else if s = "CLOSED" then some .CLOSED
  else if s = "REJECTED" then some .REJECTED
  else none

def encUser (u : User) : JVal :=
  .jobj [("id", .jint u.id), ("username", encOptStr u.username),
         ("first_name", encOptStr u.first_name),
         ("last_name", encOptStr u.last_name),
         ("created_at", .jstr u.created_at)]

def encApp (a : App) : JVal :=
  .jobj [("id", .jint a.id), ("vin_norm", .jstr a.vin_norm),
         ("vin_raw", .jstr a.vin_raw),
         ("photo_reg_file_id", encOptStr a.photo_reg_file_id),
         ("photo_vin_file_id", encOptStr a.photo_vin_file_id),
         ("full_name", .jstr a.full_name), ("phone", .jstr a.phone),
         ("owner_phone", .jstr a.owner_phone),
         ("receiver_phone", .jstr a.receiver_phone),
         ("sdek_address", .jstr a.sdek_address),
         ("client_id", .jint a.client_id),
         ("status", .jstr (statusStr a.status)),
         ("created_at", .jstr a.created_at),
         ("mod_chat_message_id", encOptInt a.mod_chat_message_id),
         ("approved_by", encOptInt a.approved_by),
         ("approved_at", encOptStr a.approved_at),
         ("shipped_by", encOptInt a.shipped_by),
         ("shipped_at", encOptStr a.shipped_at),
         ("tracking_number", encOptStr a.tracking_number),
         ("tracking_photo_file_id", encOptStr a.tracking_photo_file_id)]

def encEvent (e : Event) : JVal :=
  .jobj [("app_id", .jint e.app_id), ("ts", .jstr e.ts),
         ("actor_id", .jint e.actor_id), ("action", .jstr e.action),
         ("data", .jstr e.data)]

/-- `Store.save`: the serialized document tree. -/
def saveDoc (s : StoreData) : JVal :=
  .jobj [("meta", .jobj [("next_app_id", .jint s.next_app_id)]),
         ("users", .jmapZ (s.users.map fun p => (p.1, encUser p.2))),
         ("applications",
           .jmapN (s.applications.map fun p => (p.1, encApp p.2))),
         ("events", .jarr (s.events.map encEvent))]

/-- Field access on a loaded JSON object (`data["key"]`). -/
def jfield (kvs : List (String × JVal)) (k : String) : Option JVal :=
  lookupKey kvs k

def asStr : JVal → Option String
  | .jstr s => some s
  | _ => none

def asInt : JVal → Option Int
  | .jint n => some n
  | _ => none

def asNat : JVal → Option Nat
  | .jint n => if 0 ≤ n then some n.toNat else none
  | _ => none

def asOptStr : JVal → Option (Option String)
  | .null => some none
  | .jstr s => some (some s)
  | _ => none

def asOptInt : JVal → Option (Option Int)
  | .null => some none
  | .jint n => some (some n)
  | _ => none

def decUser : JVal → Option User
  | .jobj kvs => do
      let i ← (jfield kvs "id").bind asInt
      let un ← (jfield kvs "username").bind asOptStr
      let fn ← (jfield kvs "first_name").bind asOptStr
      let ln ← (jfield kvs "last_name").bind asOptStr
      let ca ← (jfield kvs "created_at").bind asStr
      pure ⟨i, un, fn, ln, ca⟩
  | _ => none

def decApp (j : JVal) : Option App :=
  match j with
  | .jobj kvs =>
    match (jfield kvs "id").bind asNat, (jfield kvs "vin_norm").bind asStr,
      (jfield kvs "vin_raw").bind asStr,
      (jfield kvs "photo_reg_file_id").bind asOptStr,
      (jfield kvs "photo_vin_file_id").bind asOptStr,
      (jfield kvs "full_name").bind asStr, (jfield kvs "phone").bind asStr,
      (jfield kvs "owner_phone").bind asStr,
      (jfield kvs "receiver_phone").bind asStr,
      (jfield kvs "sdek_address").bind asStr,
      (jfield kvs "client_id").bind asInt,
      ((jfield kvs "status").bind asStr).bind statusOfStr,
      (jfield kvs "created_at").bind asStr,
      (jfield kvs "mod_chat_message_id").bind asOptInt,
      (jfield kvs "approved_by").bind asOptInt,
      (jfield kvs "approved_at").bind asOptStr,
      (jfield kvs "shipped_by").bind asOptInt,
      (jfield kvs "shipped_at").bind asOptStr,
      (jfield kvs "tracking_number").bind asOptStr,
      (jfield kvs "tracking_photo_file_id").bind asOptStr with
    | some i, some vn, some vr, some pg, some pv, some fn, some ph, some op,
      some rp, some sa, some ci, some st, some ca, some mm, some ab, some aa,
      some sb, some sh, some tn, some tp =>
        some (App.mk i vn vr pg pv fn ph op rp sa ci st ca mm ab aa sb sh
          tn tp)
    | _, _, _, _, _, _, _, _, _, _, _, _, _, _, _, _, _, _, _, _ => none
  | _ => none

def decEvent : JVal → Option Event
  | .jobj kvs => do
      let i ← (jfield kvs "app_id").bind asNat
      let ts ← (jfield kvs "ts").bind asStr
      let ai ← (jfield kvs "actor_id").bind asInt
      let ac ← (jfield kvs "action").bind asStr
      let dt ← (jfield kvs "data").bind asStr
      pure ⟨i, ts, ai, ac, dt⟩
  | _ => none

def decMeta : JVal → Option Nat
  | .jobj ms => (jfield ms "next_app_id").bind asNat
  | _ => none

def decUserEntries : List (Int × JVal) → Option (List (Int × User))
  | [] => some []
  | p :: rest => do
      let u ← decUser p.2
      let us ← decUserEntries rest
      pure ((p.1, u) :: us)

def decAppEntries : List (Nat × JVal) → Option (List (Nat × App))
  | [] => some []
  | p :: rest => do
      let a ← decApp p.2
      let as ← decAppEntries rest
      pure ((p.1, a) :: as)

def decEventEntries : List JVal → Option (List Event)
  | [] => some []
  | j :: rest => do
      let e ← decEvent j
      let es ← decEventEntries rest
      pure (e :: es)

def decUsersMap : JVal → Option (List (Int × User))
  | .jmapZ kvs => decUserEntries kvs
  | _ => none

def decAppsMap : JVal → Option (List (Nat × App))
  | .jmapN kvs => decAppEntries kvs
  | _ => none

def decEvents : JVal → Option (List Event)
  | .jarr xs => decEventEntries xs
  | _ => none

/-- `Store.load`: interpret the document tree back into the in-memory
document. -/
def loadDoc : JVal → Option StoreData
  | .jobj kvs => do
      let n ← (jfield kvs "meta").bind decMeta
      let us ← (jfield kvs "users").bind decUsersMap
      let aps ← (jfield kvs "applications").bind decAppsMap
      let evs ← (jfield kvs "events").bind decEvents
      pure ⟨n, us, aps, evs⟩
  | _ => none

theorem asOptStr_enc (o : Option String) : asOptStr (encOptStr o) = some o := by
  cases o <;> rfl

theorem asOptInt_enc (o : Option Int) : asOptInt (encOptInt o) = some o := by
  cases o <;> rfl

theorem statusOfStr_statusStr (st : Status) :
    statusOfStr (statusStr st) = some st := by
  cases st <;> rfl

theorem asNat_enc (n : Nat) : asNat (.jint (n : Int)) = some n := by
  simp [asNat]

theorem decUser_encUser (u : User) : decUser (encUser u) = some u := by
  simp [decUser, encUser, jfield, lookupKey, asInt, asStr, asOptStr_enc]

theorem decApp_encApp (a : App) : decApp (encApp a) = some a := by
  simp [decApp, encApp, jfield, lookupKey, asInt, asStr, asNat_enc,
    asOptStr_enc, asOptInt_enc, statusOfStr_statusStr]

theorem decEvent_encEvent (e : Event) : decEvent (encEvent e) = some e := by
  simp [decEvent, encEvent, jfield, lookupKey, asInt, asStr, asNat_enc]

theorem decUserEntries_enc (l : List (Int × User)) :
    decUserEntries (l.map fun p => (p.1, encUser p.2)) = some l := by
  induction l with
  | nil => rfl
  | cons x xs ih => simp [decUserEntries, decUser_encUser, ih]

theorem decAppEntries_enc (l : List (Nat × App)) :
    decAppEntries (l.map fun p => (p.1, encApp p.2)) = some l := by
  induction l with
  | nil => rfl
  | cons x xs ih => simp [decAppEntries, decApp_encApp, ih]

theorem decEventEntries_enc (l : List Event) :
    decEventEntries (l.map encEvent) = some l := by
  induction l with
  | nil => rfl
  | cons x xs ih => simp [decEventEntries, decEvent_encEvent, ih]

/-- C6: serializing the in-memory document and loading it back yields the
identical document — the same users, applications, events, and counter. -/
theorem c6_save_load_roundtrip (d : StoreData) :
    loadDoc (saveDoc d) = some d := by
  cases d with
  | mk n us aps evs =>
    simp [loadDoc, saveDoc, jfield, lookupKey, decMeta, asNat_enc,
      decUsersMap, decAppsMap, decEvents, decUserEntries_enc,
      decAppEntries_enc, decEventEntries_enc]

/-! ### C9 / C10: intake state machine -/

/-- The aiogram FSM steps of the client intake flow (`NewApp`), plus the
idle state (no FSM state set). -/
inductive IStep where
  | idle
  | VIN
  | PHOTOS
  | FULLNAME
  | OWNER_PHONE
  | RECEIVER_PHONE
  | ADDRESS
  | CONFIRM
deriving DecidableEq

/-- The per-conversation FSM data dict: missing text fields are `none`, the
photo list defaults to `[]` (`d.get("photos", [])`). -/
structure Draft where
  step : IStep
  vin_raw : Option String
  vin_norm : Option String
  photos : List String
  full_name : Option String
  owner_phone : Option String
  receiver_phone : Option String
  sdek_address : Option String
deriving DecidableEq

/-- A fresh conversation (and the result of `state.clear()`). -/
def initialDraft : Draft :=
  { step := .idle, vin_raw := none, vin_norm := none, photos := [],
    full_name := none, owner_phone := none, receiver_phone := none,
    sdek_address := none }

/-- The reply-keyboard button text that triggers `ask_vin` in any state. -/
def orderButton : String := "🧩 Оформить заявку"

/-- One incoming update for the intake flow.  `text`/`photo` messages are
dispatched by the current FSM step (aiogram state filters); the
`photos_done` and `usr_edit` callbacks carry no state filter and fire in
any step; `sendOk` stands for a `usr_send` callback whose submission went
through, after which `state.clear()` resets the conversation (a failed
submission leaves the draft untouched, i.e. acts as a no-op here). -/
inductive IMsg where
  | text (t : String)
  | photo (fileId : String)
  | photosDone
  | edit
  | sendOk

/-- One dispatch step of the intake conversation, embedding `ask_vin`,
`take_vin`, `take_photos`, `photos_done`, `take_fullname`,
`take_owner_phone`, `take_receiver_phone`, `take_address`, `usr_edit` and
the `state.clear()` of a successful submission.  `vinActive v` reports
whether the store holds a non-`REJECTED` application for `v`. -/
def intakeStep (vinActive : String → Bool) (d : Draft) : IMsg → Draft
  | .text t =>
    if t = orderButton then { d with step := .VIN }
    else
      match d.step with
      | .VIN =>
        let raw := pstrip t
        if !is_valid_vin raw then d
        else if vinActive (norm_vin raw) then d
        else { d with vin_raw := some raw, vin_norm := some (norm_vin raw),
                      photos := [], step := .PHOTOS }
      | .FULLNAME => { d with full_name := some (pstrip t),
                              step := .OWNER_PHONE }
      | .OWNER_PHONE =>
        if phone_ok t then { d with owner_phone := some (pstrip t),
                                    step := .RECEIVER_PHONE }
        else d
      | .RECEIVER_PHONE =>
        if phone_ok t then { d with receiver_phone := some (pstrip t),
                                    step := .ADDRESS }
        else d
      | .ADDRESS => { d with sdek_address := some (pstrip t), step := .CONFIRM }
      | _ => d
  | .photo fid =>
    match d.step with
    | .PHOTOS => { d with photos := d.photos ++ [fid] }
    | _ => d
  | .photosDone =>
    if d.photos.isEmpty then d else { d with step := .FULLNAME }
  | .edit => { d with step := .VIN }
  | .sendOk => initialDraft

/-- `usr_send`: read the draft fields (a missing key raises `KeyError`,
modelled as `none`) and build the `create_app` payload; the first two
collected photos become the two stored photo references
(`photos[0] if photos else None`, `photos[1] if len(photos) > 1 else
None`). -/
def usr_send_payload (d : Draft) (clientId : Int) : Option Payload :=
  d.vin_norm.bind fun vn =>
  d.vin_raw.bind fun vr =>
  d.full_name.bind fun nm =>
  d.owner_phone.bind fun oph =>
  d.receiver_phone.bind fun rph =>
  d.sdek_address.bind fun ad =>
  some { vin_norm := vn, vin_raw := vr,
         photo_reg_file_id := d.photos.head?,
         photo_vin_file_id := d.photos[1]?,
         full_name := nm, owner_phone := oph, receiver_phone := rph,
         sdek_address := ad, client_id := clientId }

/-- The store effect of `usr_send`: duplicate-VIN pre-check, then
`create_app`. -/
def usr_send (s : StoreData) (d : Draft) (clientId : Int) (now : String) :
    Option (Except CreateErr (App × StoreData)) :=
  (usr_send_payload d clientId).map fun p =>
    if (find_by_vin s p.vin_norm).any
        (fun a => decide (a.status ≠ Status.REJECTED)) then
      .error .DuplicateVIN
    else create_app s p now

/-- Drafts reachable through the intake handlers from a fresh
conversation. -/
inductive DraftReachable : Draft → Prop where
  | init : DraftReachable initialDraft
  | step {d : Draft} (vinActive : String → Bool) (m : IMsg)
      (hd : DraftReachable d) : DraftReachable (intakeStep vinActive d m)

theorem draftReachable_foldl (va : String → Bool) (msgs : List IMsg)
    (d : Draft) (hd : DraftReachable d) :
    DraftReachable (msgs.foldl (intakeStep va) d) := by
  induction msgs generalizing d with
  | nil => exact hd
  | cons m ms ih => exact ih _ (DraftReachable.step va m hd)

/-- The intake steps strictly after `PHOTOS`. -/
def pastPhotos (st : IStep) : Prop :=
  st = .FULLNAME ∨ st = .OWNER_PHONE ∨ st = .RECEIVER_PHONE ∨
  st = .ADDRESS ∨ st = .CONFIRM

instance (st : IStep) : Decidable (pastPhotos st) := by
  unfold pastPhotos
  infer_instance

theorem photosOK_step (va : String → Bool) (d : Draft) (m : IMsg)
    (ih : pastPhotos d.step → d.photos ≠ []) :
    pastPhotos (intakeStep va d m).step → (intakeStep va d m).photos ≠ [] := by
  obtain ⟨st, vr, vn, phs, fn, oph, rph, ad⟩ := d
  cases m with
  | text t =>
    simp only [intakeStep]
    by_cases ho : t = orderButton
    · rw [if_pos ho]
      intro hp
      simp [pastPhotos] at hp
    · rw [if_neg ho]
      split
      · split
        · intro hp
          simp [pastPhotos] at hp
        · split
          · intro hp
            simp [pastPhotos] at hp
          · intro hp
            simp [pastPhotos] at hp
      · intro _
        exact ih (by simp [pastPhotos])
      · split
        · intro _
          exact ih (by simp [pastPhotos])
        · exact ih
      · split
        · intro _
          exact ih (by simp [pastPhotos])
        · exact ih
      · intro _
        exact ih (by simp [pastPhotos])
      · exact ih
  | photo fid =>
    simp only [intakeStep]
    split
    · intro _
      simp
    · exact ih
  | photosDone =>
    simp only [intakeStep]
    split
    · exact ih
    · rename_i hne
      intro _ hc
      exact hne (by simp [show phs = [] from hc])
  | edit =>
    simp only [intakeStep]
    intro hp
    simp [pastPhotos] at hp
  | sendOk =>
    simp only [intakeStep]
    intro hp
    simp [pastPhotos, initialDraft] at hp

theorem draft_photos_inv {d : Draft} (h : DraftReachable d) :
    pastPhotos d.step → d.photos ≠ [] := by
  induction h with
  | init =>
    intro hp
    simp [pastPhotos, initialDraft] at hp
  | step va m hd ih => exact photosOK_step va _ m ih

theorem usr_send_payload_some {d : Draft} {c : Int} {p : Payload}
    (h : usr_send_payload d c = some p) :
    ∃ vnv vrv nmv ophv rphv adv,
      d.vin_norm = some vnv ∧ d.vin_raw = some vrv ∧
      d.full_name = some nmv ∧ d.owner_phone = some ophv ∧
      d.receiver_phone = some rphv ∧ d.sdek_address = some adv ∧
      p = { vin_norm := vnv, vin_raw := vrv,
            photo_reg_file_id := d.photos.head?,
            photo_vin_file_id := d.photos[1]?,
            full_name := nmv, owner_phone := ophv, receiver_phone := rphv,
            sdek_address := adv, client_id := c } := by
  unfold usr_send_payload at h
  cases h1 : d.vin_norm with
  | none => rw [h1] at h; exact Option.noConfusion h
  | some vnv =>
    rw [h1, Option.some_bind] at h
    cases h2 : d.vin_raw with
    | none => rw [h2] at h; exact Option.noConfusion h
    | some vrv =>
      rw [h2, Option.some_bind] at h
      cases h3 : d.full_name with
      | none => rw [h3] at h; exact Option.noConfusion h
      | some nmv =>
        rw [h3, Option.some_bind] at h
        cases h4 : d.owner_phone with
        | none => rw [h4] at h; exact Option.noConfusion h
        | some ophv =>
          rw [h4, Option.some_bind] at h
          cases h5 : d.receiver_phone with
          | none => rw [h5] at h; exact Option.noConfusion h
          | some rphv =>
            rw [h5, Option.some_bind] at h
            cases h6 : d.sdek_address with
            | none => rw [h6] at h; exact Option.noConfusion h
            | some adv =>
              rw [h6, Option.some_bind] at h
              injection h with hp
              exact ⟨vnv, vrv, nmv, ophv, rphv, adv, rfl, rfl, rfl, rfl,
                rfl, rfl, hp.symm⟩

theorem take2_head (l : List String) : (l.take 2).head? = l.head? := by
  cases l with
  | nil => rfl
  | cons a t => rfl

theorem take2_second (l : List String) : (l.take 2)[1]? = l[1]? := by
  cases l with
  | nil => rfl
  | cons a t =>
    cases t with
    | nil => rfl
    | cons b t2 => simp

/-- C9 (amended): the done signal with no collected image leaves the draft
unchanged (still in `PHOTOS`); with at least one image it advances to
`FULL_NAME`, keeping the photo list.  Every submission made while the
draft is past the `PHOTOS` step carries at least one photo reference, and
`create_app` stores the reference verbatim.  (A submission fired from a
stale confirm button while the draft is at or before `PHOTOS` can carry
none — see the counterexample.) -/
theorem c9_photos_gate (va : String → Bool) (d : Draft) (c : Int) :
    (d.photos = [] → intakeStep va d .photosDone = d) ∧
    (d.photos ≠ [] → (intakeStep va d .photosDone).step = .FULLNAME ∧
       (intakeStep va d .photosDone).photos = d.photos) ∧
    (DraftReachable d → pastPhotos d.step →
       ∀ p, usr_send_payload d c = some p →
         ∃ f, p.photo_reg_file_id = some f) ∧
    (∀ (s : StoreData) (now : String) (p : Payload) (a : App)
        (s' : StoreData), create_app s p now = .ok (a, s') →
       a.photo_reg_file_id = p.photo_reg_file_id) := by
  refine ⟨?_, ?_, ?_, ?_⟩
  · intro h
    simp [intakeStep, h]
  · intro h
    have hne : d.photos.isEmpty = false := by
      cases hp : d.photos with
      | nil => exact absurd hp h
      | cons x xs => rfl
    constructor <;> simp [intakeStep, hne]
  · intro hreach hpast p hp
    rcases usr_send_payload_some hp with ⟨vnv, vrv, nmv, ophv, rphv, adv, -,
      -, -, -, -, -, hpe⟩
    have hphotos := draft_photos_inv hreach hpast
    cases hl : d.photos with
    | nil => exact absurd hl hphotos
    | cons x xs =>
      refine ⟨x, ?_⟩
      rw [hpe]
      simp [hl]
  · intro s now p a s' hc
    exact (create_app_ok_inv hc).2.2.2.2.1

/-- A valid VIN used in the intake witnesses. -/
def vin1 : String := "ABCDEFGH123456789"

/-- A second valid VIN. -/
def vin2 : String := "JKLMNPRSTUVWXYZ12"

/-- A full intake conversation up to the confirmation step. -/
def introMsgs : List IMsg :=
  [.text orderButton, .text vin1, .photo "p1", .photosDone,
   .text "John Doe", .text "+70000000000", .text "+70000000001",
   .text "Moscow, pvz 1"]

/-- The draft at `CONFIRM` after `introMsgs`. -/
def confirmDraft : Draft :=
  introMsgs.foldl (intakeStep fun _ => false) initialDraft

/-- A draft sitting in `PHOTOS` with no photo collected yet. -/
def photosDraft : Draft :=
  [IMsg.text orderButton, IMsg.text vin1].foldl
    (intakeStep fun _ => false) initialDraft

/-- The payload `usr_send` builds from `confirmDraft`. -/
def payloadC : Payload :=
  match usr_send_payload confirmDraft 1 with
  | some p => p
  | none => payloadA

/-- Witness for the amended C9 on concrete drafts. -/
theorem c9_witness :
    intakeStep (fun _ => false) photosDraft .photosDone = photosDraft ∧
    (intakeStep (fun _ => false) confirmDraft .photosDone).step
      = IStep.FULLNAME ∧
    payloadC.photo_reg_file_id ≠ none := by
  refine ⟨(c9_photos_gate (fun _ => false) photosDraft 1).1 (by decide),
    ((c9_photos_gate (fun _ => false) confirmDraft 1).2.1 (by decide)).1, ?_⟩
  have hr : DraftReachable confirmDraft :=
    draftReachable_foldl _ introMsgs _ DraftReachable.init
  rcases (c9_photos_gate (fun _ => false) confirmDraft 1).2.2.1 hr
      (by decide) payloadC (by decide) with ⟨f, hf⟩
  rw [hf]
  exact fun hc => Option.noConfusion hc

/-- Messages after a failed submission: the retained draft is re-entered
via the order button and a fresh VIN, which resets the photo list. -/
def staleMsgs : List IMsg :=
  introMsgs ++ [.text orderButton, .text vin2]

/-- The draft left in `PHOTOS` with all text fields still filled in. -/
def staleDraft : Draft :=
  staleMsgs.foldl (intakeStep fun _ => false) initialDraft

/-- The application created by pressing the stale confirm button. -/
def staleApp : App :=
  match usr_send emptyStore staleDraft 1 "t1" with
  | some (.ok r) => r.1
  | _ => appA

/-- The store after that submission. -/
def staleStore : StoreData :=
  match usr_send emptyStore staleDraft 1 "t1" with
  | some (.ok r) => r.2
  | _ => emptyStore

/-- Counterexample to C9 as stated: the `usr_send` callback carries no
state filter, so a stale confirm button pressed while the draft sits in
`PHOTOS` with an emptied photo list submits successfully and creates an
application with no photo reference at all. -/
theorem c9_counterexample :
    DraftReachable staleDraft ∧
    staleDraft.step = IStep.PHOTOS ∧
    staleDraft.photos = [] ∧
    usr_send emptyStore staleDraft 1 "t1"
      = some (.ok (staleApp, staleStore)) ∧
    staleApp.photo_reg_file_id = none ∧
    staleApp.photo_vin_file_id = none := by
  refine ⟨draftReachable_foldl _ staleMsgs _ DraftReachable.init,
    by decide, by decide, by decide, by decide, by decide⟩

/-- C10: submission stores only the first two collected photos: the first
reference is `photos[0]`, the second `photos[1]` (absent when fewer were
collected); the payload — hence the created application — is the same if
every photo beyond the first two is dropped, and `create_app` copies the
two references verbatim. -/
theorem c10_first_two_photos (d : Draft) (c : Int) (p : Payload)
    (h : usr_send_payload d c = some p) :
    p.photo_reg_file_id = d.photos.head? ∧
    p.photo_vin_file_id = d.photos[1]? ∧
    usr_send_payload { d with photos := d.photos.take 2 } c = some p ∧
    (∀ (s : StoreData) (now : String) (a : App) (s' : StoreData),
       create_app s p now = .ok (a, s') →
       a.photo_reg_file_id = d.photos.head? ∧
       a.photo_vin_file_id = d.photos[1]?) := by
  rcases usr_send_payload_some h with ⟨vnv, vrv, nmv, ophv, rphv, adv,
    h1, h2, h3, h4, h5, h6, hpe⟩
  refine ⟨by rw [hpe], by rw [hpe], ?_, ?_⟩
  · unfold usr_send_payload
    simp only [h1, h2, h3, h4, h5, h6, Option.some_bind]
    rw [hpe]
    simp [take2_head, take2_second]
  · intro s now a s' hc
    rcases create_app_ok_inv hc with ⟨-, -, -, -, hreg, hvin2, -⟩
    rw [hreg, hvin2, hpe]
    exact ⟨rfl, rfl⟩

/-- Witness for C10 at the concrete confirmation draft. -/
theorem c10_witness :
    payloadC.photo_reg_file_id = confirmDraft.photos.head? ∧
    usr_send_payload
        { confirmDraft with photos := confirmDraft.photos.take 2 } 1
      = some payloadC := by
  have h := c10_first_two_photos confirmDraft 1 payloadC (by decide)
  exact ⟨h.1, h.2.2.1⟩
